import Mathlib

/-
Verification development for the dotrix GPU resource-management and
frame-command pipeline (crates dotrix-gpu and dotrix-pbr).

The Rust sources are shallowly embedded: stateful code becomes explicit
state passing over plain Lean structures, machine integers become Nat
(no value in the modelled fragment ever approaches 2^32, and none of the
claims concerns wrap-around), durations and frame rates become rationals,
and fallible or panicking code returns Option (none models a panic).
Device-side effects (queue.write_buffer, surface.configure) are recorded
in explicit logs so that claims about which writes happen can be stated.
-/

namespace Dotrix

/-- Surface configuration fragment of wgpu SurfaceConfiguration that the
embedded code reads or writes: width and height. Format, usage and
present mode are fixed at startup and never touched by the modelled
fragment. -/
structure SurfaceConf where
  width : Nat
  height : Nat
deriving DecidableEq

/-- GPU buffer as created by the device. Only its fixed byte capacity is
observable in the modelled fragment (dotrix-gpu buffer.rs wraps a
wgpu::Buffer whose contents live device-side). -/
structure Buffer where
  size : Nat
deriving DecidableEq

/-- Type-erased object stored in the Gpu registry (field storage of
struct Gpu, a HashMap of uuid to Box of dyn Any). One variant per GPU
object type stored by the code; the non-buffer payloads are opaque
tags at this layer. -/
inductive GpuObject where
  | buffer (b : Buffer)
  | renderPipeline (tag : Nat)
  | shaderModule (tag : Nat)
  | bindGroup (tag : Nat)
deriving DecidableEq

/-- Record of one queue.write_buffer call: target buffer, byte offset,
and byte count. Payload bytes are device-side data that no claim
inspects. -/
structure WriteOp where
  target : Buffer
  offset : Nat
  size : Nat
deriving DecidableEq

/-- Association-list lookup, modelling HashMap::get. Keys are inserted
at most once by the embedded code, so the first match is the match. -/
def alookup {α : Type} : List (Nat × α) → Nat → Option α
  | [], _ => none
  | (k2, v) :: rest, k => if k2 = k then some v else alookup rest k

/-- State of struct Gpu (dotrix-gpu src/lib.rs lines 33-58). Timestamps
(Instant) are external real time: the model keeps only whether a last
frame exists, and the elapsed delta is an input of the frame step.
The writes log and the configures counter record device-side effects. -/
structure Gpu where
  fps_request : ℚ
  sample_count : Nat
  frames_duration : List ℚ
  frames_cap : Nat
  last_frame : Bool
  fps : ℚ
  surface_conf : SurfaceConf
  resize_request : Option (Nat × Nat)
  storage : List (Nat × GpuObject)
  writes : List WriteOp
  configures : Nat
deriving DecidableEq

/-- Constant FPS_MEASURE_INTERVAL from dotrix-gpu src/lib.rs line 24. -/
def FPS_MEASURE_INTERVAL : Nat := 5

/-- Number of FPS samples allocated in Gpu::new line 115:
(FPS_MEASURE_INTERVAL * fps_request.ceil() as u32) as usize. The cast
of a float to u32 saturates at zero for negative values, matching
Nat.ceil on rationals. -/
def fpsSamples (fps_request : ℚ) : Nat :=
  FPS_MEASURE_INTERVAL * Nat.ceil fps_request

/-- Gpu::new (lines 99-132): empty sample window with capacity
fpsSamples, fps preset to the requested value, no last frame, no
pending resize, empty storage, surface configured once from the
descriptor size. -/
def Gpu.new (fps_request : ℚ) (sample_count width height : Nat) : Gpu where
  fps_request := fps_request
  sample_count := sample_count
  frames_duration := []
  frames_cap := fpsSamples fps_request
  last_frame := false
  fps := fps_request
  surface_conf := { width := width, height := height }
  resize_request := none
  storage := []
  writes := []
  configures := 1

/-- Gpu::store (lines 134-138): insert a fresh entry into the registry.
The uuid is generated externally in the source; here the fresh key is
an input. -/
def Gpu.store (g : Gpu) (key : Nat) (obj : GpuObject) : Gpu :=
  { g with storage := (key, obj) :: g.storage }

/-- Gpu::get at type Buffer (lines 144-148): typed retrieval; returns
none when the handle is absent or the stored object is not a Buffer
(the downcast fails). -/
def Gpu.get (g : Gpu) (id : Nat) : Option Buffer :=
  match alookup g.storage id with
  | some (GpuObject.buffer b) => some b
  | _ => none

/-- Gpu::write_buffer (lines 174-176): forward the write to the device
queue. No size or capacity check is performed by this code. -/
def Gpu.write_buffer (g : Gpu) (buffer : Buffer) (offset : Nat)
    (data : List Nat) : Gpu :=
  { g with writes := g.writes ++ [⟨buffer, offset, data.length⟩] }

/-- Gpu::write_buffer_by_id (lines 178-182): look the handle up, write
through it when found, do nothing otherwise. -/
def Gpu.write_buffer_by_id (g : Gpu) (id : Nat) (offset : Nat)
    (data : List Nat) : Gpu :=
  match g.get id with
  | some b => g.write_buffer b offset data
  | none => g

/-- Gpu::resize_request setter (lines 227-229), also used by the task
ResizeSurface (line 340): overwrite the pending request, so the latest
request wins. -/
def Gpu.requestResize (g : Gpu) (width height : Nat) : Gpu :=
  { g with resize_request := some (width, height) }

/-- Synthetic or measured inter-frame delta of CreateFrame::run lines
265-269: the measured elapsed time when a previous frame exists, and
one over the requested fps for the first frame. -/
def frameDelta (g : Gpu) (measured : ℚ) : ℚ :=
  if g.last_frame then measured else 1 / g.fps_request

/-- Timing fragment of CreateFrame::run (lines 264-285): record the
frame timestamp, evict the oldest sample (the back of the deque, since
samples are pushed at the front) when the window is full, push the new
delta, and recompute fps as sample count over summed duration. -/
def stepFrameTiming (g : Gpu) (measured : ℚ) : Gpu :=
  let delta := frameDelta g measured
  let evicted := if g.frames_duration.length = g.frames_cap
    then g.frames_duration.dropLast else g.frames_duration
  let window := delta :: evicted
  { g with
    last_frame := true
    frames_duration := window
    fps := (window.length : ℚ) / window.sum }

/-- Resize fragment of CreateFrame::run (lines 287-296): take the
pending request (always clearing it) and reconfigure the surface only
when both dimensions are positive. -/
def applyResizeRequest (g : Gpu) : Gpu :=
  match g.resize_request with
  | none => g
  | some (width, height) =>
    let g2 := { g with resize_request := none }
    if 0 < width ∧ 0 < height then
      { g2 with
        surface_conf := { width := width, height := height }
        configures := g2.configures + 1 }
    else g2

/-- CreateFrame::run (lines 264-321) restricted to Gpu state: timing
update then resize application. The subsequent surface texture
acquisition is a device-side effect that no claim inspects. -/
def CreateFrame.run (g : Gpu) (measured : ℚ) : Gpu :=
  applyResizeRequest (stepFrameTiming g measured)

/-- Sequence of frame requests with externally measured deltas. -/
def runFrames (g : Gpu) (deltas : List ℚ) : Gpu :=
  deltas.foldl CreateFrame.run g

/-- Finished command batch (struct Commands, lines 80-83): an integer
priority plus the recorded command buffer, opaque here. -/
structure Commands where
  priority : Nat
  inner : Nat
deriving DecidableEq

/-- SubmitCommands::run (lines 399-411): collect all produced batches,
sort them with the stable standard sort on priority ascending, and
submit the whole list to the device queue in a single call; the
returned list is the submission order of that one call. -/
def SubmitCommands.run (commands : List Commands) : List Commands :=
  commands.mergeSort (fun a b => decide (a.priority ≤ b.priority))

/-- Byte size of one vertex of SolidVertexBufferLayout = (Position,
Normal, TexUV). Modelled from the spec: the VertexBufferLayout impl
lives in the external dotrix-mesh crate; the spec fixes the layout to a
tuple of position, normal and texture UV, that is three f32 plus three
f32 plus two f32 = 32 bytes. -/
def solidVertexSize : Nat := 32

/-- Byte size of MaterialUniform. Modelled from the spec: the material
module of dotrix-pbr is absent here; the spec fixes a packed record of
an albedo color (4 f32), three scalar parameters plus padding (4 f32)
and two reserved 4-slot texture map arrays (8 u32) = 64 bytes. -/
def materialUniformSize : Nat := 64

/-- Byte size of a 4 by 4 f32 transform matrix. -/
def transformSize : Nat := 64

/-- Byte size of struct Instance (four u32 fields, lines 513-520). -/
def instanceSize : Nat := 16

/-- Byte size of wgpu::util::DrawIndirect (four packed u32). -/
def drawIndirectSize : Nat := 16

/-- Mesh asset as seen through the call sites of Render::run. The Mesh
type lives in the external dotrix-mesh crate; the fields here mirror
exactly what the batcher reads: version(), whether indices() is
present, the optional solid-layout vertex byte blob from buffer(), and
count_vertices(). -/
structure Mesh where
  version : Nat
  indexed : Bool
  vertexData : Option (List Nat)
  vertexCount : Nat
deriving DecidableEq

/-- Material asset as seen through the call sites of Render::run. The
scalar payloads are forwarded into the packed uniform and never
inspected by the batching logic, so they are opaque numbers here. -/
structure Material where
  albedo : Nat
  ambient_occlusion : Nat
  metallic : Nat
  roughness : Nat
deriving DecidableEq

/-- Asset store as seen by the batcher: assets.get for meshes and for
materials, returning none while an asset is not yet loaded. -/
structure Assets where
  meshes : List (Nat × Mesh)
  materials : List (Nat × Material)
deriving DecidableEq

/-- One row of the world query of Render::run line 319: entity id, mesh
id, material id, armature id (unused by the batcher) and a transform,
opaque here since its matrix bytes are forwarded without inspection. -/
structure EntityRow where
  entityId : Nat
  meshId : Nat
  materialId : Nat
  armatureId : Nat
  transform : Nat
deriving DecidableEq

/-- Struct BufferLocation (lines 250-253). -/
structure BufferLocation where
  offset : Nat
  size : Nat
deriving DecidableEq

/-- Struct MeshLayout (lines 255-263): the per-mesh cache entry. -/
structure MeshLayout where
  version : Nat
  vertex_buffer_location : BufferLocation
  index_buffer_location : Option BufferLocation
  base_vertex : Nat
  vertex_count : Nat
deriving DecidableEq

/-- Struct Render (lines 265-272): the persistent batcher state. The
HashMaps become association lists whose keys are inserted at most
once. -/
structure Render where
  meshes : List (Nat × MeshLayout)
  meshes_layout : List Nat
  meshes_size : Nat
  transform_bases : List (Nat × Nat)
  material_bases : List (Nat × Nat)
  cycle : Nat
deriving DecidableEq

/-- Render::new (lines 277-288). -/
def Render.new : Render :=
  { meshes := []
    meshes_layout := []
    meshes_size := 0
    transform_bases := []
    material_bases := []
    cycle := 0 }

/-- Struct Instance (lines 513-520): indices of the transform slot and
the material slot, plus two reserved fields that stay zero. -/
structure Instance where
  base_transform : Nat
  base_material : Nat
  reserve_0 : Nat
  reserve_1 : Nat
deriving DecidableEq

/-- Struct DrawEntry (lines 525-533). -/
structure DrawEntry where
  base_vertex : Nat
  vertex_count : Nat
  instances : List Instance
deriving DecidableEq

/-- Names of the five shared device buffers the batcher writes. -/
inductive BufTag where
  | mesh
  | transform
  | materials
  | indirect
  | instances
deriving DecidableEq

/-- Record of one gpu.write_buffer call issued by Render::run: target
buffer, byte offset and byte count. Payload bytes are device-side. -/
structure PbrWrite where
  target : BufTag
  offset : Nat
  size : Nat
deriving DecidableEq

/-- Accumulator of the entity loop of Render::run: the persistent
state, the per-frame draw_entries map, the log of issued buffer writes,
and the instances counter of line 317. -/
structure FrameAcc where
  state : Render
  draw_entries : List (Nat × DrawEntry)
  writes : List PbrWrite
  instances : Nat
deriving DecidableEq

/-- HashMap entry().or_insert_with().instances.push() of lines 426-436:
append the instance to the entry of the key, creating the entry with
the given base vertex and vertex count when absent. -/
def pushInstance (k : Nat) (bv vc : Nat) (inst : Instance) :
    List (Nat × DrawEntry) → List (Nat × DrawEntry)
  | [] => [(k, { base_vertex := bv, vertex_count := vc, instances := [inst] })]
  | (k2, v) :: rest =>
    if k2 = k then (k2, { v with instances := v.instances ++ [inst] }) :: rest
    else (k2, v) :: pushInstance k bv vc inst rest

/-- Mesh residency step of Render::run (lines 341-381). Returns none
for the panic on an indexed mesh; some none when the mesh has no solid
vertex data (the entity is skipped); otherwise the resolved base vertex
and vertex count together with the updated accumulator (cache entry,
tail offset, device write and layout order on a miss). -/
def resolveMeshLayout (acc : FrameAcc) (e : EntityRow) (mesh : Mesh) :
    Option (Option (Nat × Nat × FrameAcc)) :=
  match alookup acc.state.meshes e.meshId with
  | some ml => some (some (ml.base_vertex, ml.vertex_count, acc))
  | none =>
    if mesh.indexed then none
    else
      match mesh.vertexData with
      | none => some none
      | some data =>
        let data_size := data.length
        let offset := acc.state.meshes_size
        let base_vertex := offset / solidVertexSize
        let vertex_count := mesh.vertexCount
        let st := acc.state
        some (some (base_vertex, vertex_count,
          { acc with
            state := { st with
              meshes := st.meshes ++ [(e.meshId,
                { version := mesh.version
                  vertex_buffer_location := { offset := offset, size := data_size }
                  index_buffer_location := none
                  base_vertex := base_vertex
                  vertex_count := vertex_count })]
              meshes_size := st.meshes_size + data_size
              meshes_layout := st.meshes_layout ++ [e.meshId] }
            writes := acc.writes ++ [⟨BufTag.mesh, offset, data_size⟩] }))

/-- Transform residency step (lines 383-397): look up or assign the
next free slot for the entity and write the 64-byte matrix at slot
times matrix size, unconditionally. Returns the slot and the updated
accumulator. -/
def storeTransform (acc : FrameAcc) (e : EntityRow) : Nat × FrameAcc :=
  let st := acc.state
  let fresh := st.transform_bases.length
  let found := alookup st.transform_bases e.entityId
  let base := found.getD fresh
  let bases := match found with
    | some _ => st.transform_bases
    | none => st.transform_bases ++ [(e.entityId, fresh)]
  (base,
    { acc with
      state := { st with transform_bases := bases }
      writes := acc.writes ++
        [⟨BufTag.transform, base * transformSize, transformSize⟩] })

/-- Material residency step (lines 399-424): look up or assign the next
free slot for the material and write the 64-byte packed uniform at slot
times uniform size, unconditionally on every encounter. -/
def storeMaterial (acc : FrameAcc) (e : EntityRow) : Nat × FrameAcc :=
  let st := acc.state
  let fresh := st.material_bases.length
  let found := alookup st.material_bases e.materialId
  let base := found.getD fresh
  let bases := match found with
    | some _ => st.material_bases
    | none => st.material_bases ++ [(e.materialId, fresh)]
  (base,
    { acc with
      state := { st with material_bases := bases }
      writes := acc.writes ++
        [⟨BufTag.materials, base * materialUniformSize, materialUniformSize⟩] })

/-- One iteration of the entity loop of Render::run (lines 319-438).
Returns none exactly when the loop panics (an indexed mesh reaches the
batching path). Entities whose mesh or material asset is not ready, or
whose mesh has no solid-layout data, are skipped. -/
def processEntity (assets : Assets) (acc : FrameAcc) (e : EntityRow) :
    Option FrameAcc :=
  match alookup assets.meshes e.meshId with
  | none => some acc
  | some mesh =>
    match alookup assets.materials e.materialId with
    | none => some acc
    | some _material =>
      match resolveMeshLayout acc e mesh with
      | none => none
      | some none => some acc
      | some (some (base_vertex, vertex_count, acc1)) =>
        let r2 := storeTransform acc1 e
        let r3 := storeMaterial r2.2 e
        some { r3.2 with
          draw_entries := pushInstance e.meshId base_vertex vertex_count
            ⟨r2.1, r3.1, 0, 0⟩ r3.2.draw_entries
          instances := r3.2.instances + 1 }

/-- Whole entity loop of Render::run. -/
def processQuery (assets : Assets) (acc : FrameAcc) :
    List EntityRow → Option FrameAcc
  | [] => some acc
  | e :: es =>
    match processEntity assets acc e with
    | none => none
    | some acc2 => processQuery assets acc2 es

/-- Record wgpu::util::DrawIndirect as emitted at lines 455-463. -/
structure IndirectCommand where
  vertex_count : Nat
  instance_count : Nat
  base_vertex : Nat
  base_instance : Nat
deriving DecidableEq

/-- Default IndirectCommand used only as a List.getD fallback. -/
def dfltCmd : IndirectCommand :=
  { vertex_count := 0, instance_count := 0, base_vertex := 0, base_instance := 0 }

/-- Indirect and instance buffer construction of lines 440-467: iterate
the persistent meshes_layout order, look up the draw entry of each mesh
(none models the unwrap panic when a cached mesh was not drawn this
frame), emit one DrawIndirect with the running base_instance, and
append the instances contiguously. -/
def buildDraw (draws : List (Nat × DrawEntry)) :
    List Nat → Nat → Option (List IndirectCommand × List Instance)
  | [], _ => some ([], [])
  | m :: ms, base_instance =>
    match alookup draws m with
    | none => none
    | some entry =>
      match buildDraw draws ms (base_instance + entry.instances.length) with
      | none => none
      | some (cmds, insts) =>
        some ({ vertex_count := entry.vertex_count
                instance_count := entry.instances.length
                base_vertex := entry.base_vertex
                base_instance := base_instance } :: cmds,
          entry.instances ++ insts)

/-- Result of one frame of Render::run: the updated persistent state,
the ordered log of issued device writes, the emitted indirect commands
and the instance buffer content. -/
structure FrameOutput where
  state : Render
  writes : List PbrWrite
  indirect : List IndirectCommand
  instances_data : List Instance
deriving DecidableEq

/-- Default FrameOutput used only as an Option.getD fallback. -/
def dfltOut : FrameOutput :=
  { state := Render.new, writes := [], indirect := [], instances_data := [] }

/-- Render::run (lines 301-510) restricted to its batching state and
device writes: run the entity loop, build the indirect and instance
buffers, then write both in two bulk copies at offset zero (lines
469-479). The recorded render pass and the multi draw indirect call
consume these buffers device-side and are not further modelled. A
result of none models a panic. -/
def Render.run (assets : Assets) (st : Render) (query : List EntityRow) :
    Option FrameOutput :=
  match processQuery assets ⟨st, [], [], 0⟩ query with
  | none => none
  | some acc =>
    match buildDraw acc.draw_entries acc.state.meshes_layout 0 with
    | none => none
    | some (cmds, insts) =>
      some { state := acc.state
             writes := acc.writes ++
               [⟨BufTag.instances, 0, insts.length * instanceSize⟩,
                ⟨BufTag.indirect, 0, cmds.length * drawIndirectSize⟩]
             indirect := cmds
             instances_data := insts }

/-- Readiness of one entity for the batching path: its mesh asset is
loaded, its material asset is loaded, the mesh carries no index data
and it provides solid-layout vertex data. Entities failing only the
asset checks are skipped by the loop; an indexed mesh makes the loop
panic. -/
def entityReady (assets : Assets) (e : EntityRow) : Bool :=
  match alookup assets.meshes e.meshId with
  | none => false
  | some mesh =>
    match alookup assets.materials e.materialId with
    | none => false
    | some _ => !mesh.indexed && mesh.vertexData.isSome

/-- Structural invariant of the persistent batcher state: the cache
keys of meshes coincide with meshes_layout in order, and the layout
order has no duplicates. Render::new satisfies it and every frame
preserves it, since a cache entry and its layout position are appended
together exactly once per mesh. -/
def renderWF (st : Render) : Prop :=
  st.meshes.map Prod.fst = st.meshes_layout ∧ st.meshes_layout.Nodup

/-- Count of instances accumulated for a mesh in the draw_entries map. -/
def countInstances (draws : List (Nat × DrawEntry)) (m : Nat) : Nat :=
  match alookup draws m with
  | some entry => entry.instances.length
  | none => 0

/-- Specification-side order of first encounters: the mesh ids of the
query in order of first appearance, skipping ids already seen. Stated
from the spec words (for each mesh in first-encountered order) to be
compared with the order the code produces. -/
def firstEncounters (seen : List Nat) : List EntityRow → List Nat
  | [] => []
  | e :: es =>
    if e.meshId ∈ seen then firstEncounters seen es
    else e.meshId :: firstEncounters (seen ++ [e.meshId]) es

/-- Key membership characterizes lookup success in an association list. -/
theorem alookup_isSome_iff_mem {α : Type} (l : List (Nat × α)) (k : Nat) :
    (alookup l k).isSome = true ↔ k ∈ l.map Prod.fst := by
  induction l with
  | nil => simp [alookup]
  | cons p rest ih =>
    obtain ⟨k2, v⟩ := p
    by_cases h : k2 = k
    · subst h
      simp [alookup]
    · simp only [alookup, if_neg h, List.map_cons, List.mem_cons]
      rw [ih]
      constructor
      · exact fun hm => Or.inr hm
      · rintro (hm | hm)
        · exact absurd hm.symm h
        · exact hm

/-- Lookup in an appended association list scans the left part first. -/
theorem alookup_append {α : Type} (l1 l2 : List (Nat × α)) (k : Nat) :
    alookup (l1 ++ l2) k =
      match alookup l1 k with
      | some v => some v
      | none => alookup l2 k := by
  induction l1 with
  | nil => simp [alookup]
  | cons p rest ih =>
    obtain ⟨k2, v⟩ := p
    by_cases h : k2 = k <;> simp [alookup, h, ih]

/-- Effect of pushInstance on per-mesh instance counts: the target mesh
gains exactly one instance, every other mesh is untouched. -/
theorem countInstances_pushInstance (draws : List (Nat × DrawEntry))
    (k bv vc : Nat) (inst : Instance) (m : Nat) :
    countInstances (pushInstance k bv vc inst draws) m =
      countInstances draws m + (if k = m then 1 else 0) := by
  induction draws with
  | nil =>
    by_cases h : k = m <;>
      simp [pushInstance, countInstances, alookup, h]
  | cons p rest ih =>
    obtain ⟨k2, v⟩ := p
    by_cases h2 : k2 = k
    · subst h2
      by_cases hm : k2 = m <;>
        simp [pushInstance, countInstances, alookup, hm]
    · by_cases hm : k2 = m
      · subst hm
        have hkm : ¬k = k2 := fun h => h2 h.symm
        simp [pushInstance, countInstances, alookup, h2, hkm]
      · simpa [pushInstance, countInstances, alookup, h2, hm] using ih

/-- Effect of pushInstance on entry existence. -/
theorem alookup_pushInstance_isSome (draws : List (Nat × DrawEntry))
    (k bv vc : Nat) (inst : Instance) (m : Nat) :
    (alookup (pushInstance k bv vc inst draws) m).isSome = true ↔
      ((alookup draws m).isSome = true ∨ k = m) := by
  induction draws with
  | nil =>
    by_cases h : k = m <;> simp [pushInstance, alookup, h]
  | cons p rest ih =>
    obtain ⟨k2, v⟩ := p
    by_cases h2 : k2 = k
    · subst h2
      by_cases hm : k2 = m <;> simp [pushInstance, alookup, hm]
    · by_cases hm : k2 = m
      · subst hm
        simp [pushInstance, alookup, h2]
      · simpa [pushInstance, alookup, h2, hm] using ih

/-- Creation form of pushInstance when the mesh has no entry yet. -/
theorem alookup_pushInstance_of_none (draws : List (Nat × DrawEntry))
    (k bv vc : Nat) (inst : Instance)
    (habs : alookup draws k = none) :
    alookup (pushInstance k bv vc inst draws) k =
      some { base_vertex := bv, vertex_count := vc, instances := [inst] } := by
  induction draws with
  | nil => simp [pushInstance, alookup]
  | cons p rest ih =>
    obtain ⟨k2, v⟩ := p
    by_cases h2 : k2 = k
    · simp [alookup, h2] at habs
    · simp only [alookup, if_neg h2] at habs
      simp [pushInstance, alookup, h2, ih habs]

/-- Membership in the first-encounter order: exactly the mesh ids of
the query that were not already seen. -/
theorem mem_firstEncounters (m : Nat) :
    ∀ (query : List EntityRow) (seen : List Nat),
    (m ∈ firstEncounters seen query ↔
      (m ∉ seen ∧ ∃ e ∈ query, e.meshId = m)) := by
  intro query
  induction query with
  | nil => intro seen; simp [firstEncounters]
  | cons e es ih =>
    intro seen
    by_cases h : e.meshId ∈ seen
    · rw [firstEncounters, if_pos h, ih]
      constructor
      · rintro ⟨hn, x, hx, hxm⟩
        exact ⟨hn, x, List.mem_cons_of_mem e hx, hxm⟩
      · rintro ⟨hn, x, hx, hxm⟩
        rcases List.mem_cons.1 hx with hx1 | hx2
        · subst hx1
          subst hxm
          exact absurd h hn
        · exact ⟨hn, x, hx2, hxm⟩
    · rw [firstEncounters, if_neg h]
      rw [List.mem_cons, ih]
      constructor
      · rintro (hm | ⟨hn, x, hx, hxm⟩)
        · subst hm
          exact ⟨h, e, List.mem_cons_self e es, rfl⟩
        · refine ⟨fun hs => hn (List.mem_append_left _ hs), x,
            List.mem_cons_of_mem e hx, hxm⟩
      · rintro ⟨hn, x, hx, hxm⟩
        rcases List.mem_cons.1 hx with hx1 | hx2
        · subst hx1
          exact Or.inl hxm.symm
        · by_cases hme : m = e.meshId
          · exact Or.inl hme
          · refine Or.inr ⟨fun hs => ?_, x, hx2, hxm⟩
            rcases List.mem_append.1 hs with hs1 | hs2
            · exact hn hs1
            · simp at hs2
              exact hme hs2

/-- First-encounter orders never contain duplicates. -/
theorem firstEncounters_nodup :
    ∀ (query : List EntityRow) (seen : List Nat),
    (firstEncounters seen query).Nodup := by
  intro query
  induction query with
  | nil => intro seen; simp [firstEncounters]
  | cons e es ih =>
    intro seen
    by_cases h : e.meshId ∈ seen
    · rw [firstEncounters, if_pos h]
      exact ih seen
    · rw [firstEncounters, if_neg h]
      refine List.Nodup.cons (fun hm => ?_) (ih (seen ++ [e.meshId]))
      have := (mem_firstEncounters e.meshId es (seen ++ [e.meshId])).1 hm
      exact this.1 (List.mem_append_right _ (by simp))

/-- Fields of the accumulator untouched by the two residency store
steps: the mesh cache, the layout order, the tail offset, the per-frame
draw entries and the instance counter. -/
theorem stores_effect (acc : FrameAcc) (e : EntityRow) :
    ((storeMaterial (storeTransform acc e).2 e).2).state.meshes = acc.state.meshes ∧
    ((storeMaterial (storeTransform acc e).2 e).2).state.meshes_layout = acc.state.meshes_layout ∧
    ((storeMaterial (storeTransform acc e).2 e).2).state.meshes_size = acc.state.meshes_size ∧
    ((storeMaterial (storeTransform acc e).2 e).2).draw_entries = acc.draw_entries ∧
    ((storeMaterial (storeTransform acc e).2 e).2).instances = acc.instances :=
  ⟨rfl, rfl, rfl, rfl, rfl⟩

/-- Computation of processEntity on a ready entity: it never panics,
pushes exactly one instance for the mesh of the entity, leaves the mesh
cache untouched on a cache hit, and appends exactly one cache entry and
one layout position on a cache miss. -/
theorem processEntity_ready (assets : Assets) (acc : FrameAcc) (e : EntityRow)
    (he : entityReady assets e = true) :
    ∃ acc2, processEntity assets acc e = some acc2 ∧
      (∃ bv vc inst, acc2.draw_entries =
        pushInstance e.meshId bv vc inst acc.draw_entries) ∧
      ((alookup acc.state.meshes e.meshId).isSome = true →
        acc2.state.meshes = acc.state.meshes ∧
        acc2.state.meshes_layout = acc.state.meshes_layout) ∧
      ((alookup acc.state.meshes e.meshId).isSome = false →
        (∃ L, acc2.state.meshes = acc.state.meshes ++ [(e.meshId, L)]) ∧
        acc2.state.meshes_layout = acc.state.meshes_layout ++ [e.meshId]) := by
  unfold entityReady at he
  cases hm : alookup assets.meshes e.meshId with
  | none => rw [hm] at he; simp at he
  | some mesh =>
    rw [hm] at he
    cases hmat : alookup assets.materials e.materialId with
    | none => rw [hmat] at he; simp at he
    | some mat =>
      rw [hmat] at he
      simp only [Bool.and_eq_true, Bool.not_eq_true'] at he
      obtain ⟨hnidx, hdata⟩ := he
      cases hc : alookup acc.state.meshes e.meshId with
      | some ml =>
        refine ⟨_, by simp only [processEntity, hm, hmat, resolveMeshLayout, hc];rfl, ?_, ?_, ?_⟩
        · exact ⟨ml.base_vertex, ml.vertex_count, _, rfl⟩
        · exact fun _ => ⟨rfl, rfl⟩
        · intro hfalse
          simp at hfalse
      | none =>
        cases hvd : mesh.vertexData with
        | none => rw [hvd] at hdata; simp at hdata
        | some data =>
          refine ⟨_, by simp only [processEntity, hm, hmat, resolveMeshLayout, hc,
              hnidx, hvd, if_false, Bool.false_eq_true];rfl, ?_, ?_, ?_⟩
          · exact ⟨acc.state.meshes_size / solidVertexSize, mesh.vertexCount, _, rfl⟩
          · intro htrue
            simp at htrue
          · exact fun _ => ⟨⟨_, rfl⟩, rfl⟩

/-- Invariant of the whole entity loop on ready entities: no panic, the
persistent layout order grows by exactly the first encounters of the
query, cache keys keep tracking the layout order, each mesh accumulates
one instance per entity of the query referencing it, and a mesh owns a
draw entry exactly when it owned one before or is referenced. -/
theorem processQuery_spec (assets : Assets) :
    ∀ (query : List EntityRow) (acc : FrameAcc),
    (∀ e ∈ query, entityReady assets e = true) →
    acc.state.meshes.map Prod.fst = acc.state.meshes_layout →
    ∃ acc2,
      processQuery assets acc query = some acc2 ∧
      acc2.state.meshes.map Prod.fst = acc2.state.meshes_layout ∧
      acc2.state.meshes_layout =
        acc.state.meshes_layout ++ firstEncounters acc.state.meshes_layout query ∧
      (∀ m, countInstances acc2.draw_entries m =
        countInstances acc.draw_entries m +
          query.countP (fun e => e.meshId == m)) ∧
      (∀ m, (alookup acc2.draw_entries m).isSome = true ↔
        ((alookup acc.draw_entries m).isSome = true ∨ ∃ e ∈ query, e.meshId = m)) := by
  intro query
  induction query with
  | nil =>
    intro acc hready hwf
    exact ⟨acc, rfl, hwf, by simp [firstEncounters],
      fun m => by simp, fun m => by simp⟩
  | cons e es ih =>
    intro acc hready hwf
    obtain ⟨acc1, hpe, ⟨bv, vc, inst, hde⟩, hhit, hmiss⟩ :=
      processEntity_ready assets acc e (hready e (List.mem_cons_self e es))
    have hready2 : ∀ x ∈ es, entityReady assets x = true :=
      fun x hx => hready x (List.mem_cons_of_mem e hx)
    by_cases hcache : (alookup acc.state.meshes e.meshId).isSome = true
    · obtain ⟨hmeq, hleq⟩ := hhit hcache
      have hwf1 : acc1.state.meshes.map Prod.fst = acc1.state.meshes_layout := by
        rw [hmeq, hleq, hwf]
      obtain ⟨acc2, hq, hwf2, hlay, hcnt, hsome⟩ := ih acc1 hready2 hwf1
      have hmem : e.meshId ∈ acc.state.meshes_layout := by
        rw [← hwf, ← alookup_isSome_iff_mem]
        exact hcache
      refine ⟨acc2, ?_, hwf2, ?_, ?_, ?_⟩
      · simp only [processQuery, hpe]
        exact hq
      · rw [hlay, hleq, firstEncounters, if_pos hmem]
      · intro m
        have h1 := hcnt m
        rw [hde, countInstances_pushInstance] at h1
        rw [h1, List.countP_cons]
        by_cases hem : e.meshId = m
        · simp only [hem, if_pos rfl, beq_self_eq_true, if_true]
          omega
        · have : (e.meshId == m) = false := by simp [hem]
          simp only [if_neg hem, this, Bool.false_eq_true, if_false]
          omega
      · intro m
        rw [hsome m, hde, alookup_pushInstance_isSome]
        simp only [List.mem_cons, exists_eq_or_imp]
        tauto
    · have hfalse : (alookup acc.state.meshes e.meshId).isSome = false := by
        simpa using hcache
      obtain ⟨⟨L, hmeq⟩, hleq⟩ := hmiss hfalse
      have hwf1 : acc1.state.meshes.map Prod.fst = acc1.state.meshes_layout := by
        rw [hmeq, hleq, List.map_append, hwf]
        rfl
      obtain ⟨acc2, hq, hwf2, hlay, hcnt, hsome⟩ := ih acc1 hready2 hwf1
      have hnmem : e.meshId ∉ acc.state.meshes_layout := by
        rw [← hwf, ← alookup_isSome_iff_mem]
        simp [hfalse]
      refine ⟨acc2, ?_, hwf2, ?_, ?_, ?_⟩
      · simp only [processQuery, hpe]
        exact hq
      · rw [hlay, hleq, firstEncounters, if_neg hnmem, List.append_assoc]
        rfl
      · intro m
        have h1 := hcnt m
        rw [hde, countInstances_pushInstance] at h1
        rw [h1, List.countP_cons]
        by_cases hem : e.meshId = m
        · simp only [hem, if_pos rfl, beq_self_eq_true, if_true]
          omega
        · have : (e.meshId == m) = false := by simp [hem]
          simp only [if_neg hem, this, Bool.false_eq_true, if_false]
          omega
      · intro m
        rw [hsome m, hde, alookup_pushInstance_isSome]
        simp only [List.mem_cons, exists_eq_or_imp]
        tauto

/-- Characterization of a successful indirect-buffer build: one command
per layout position, instance counts read off the draw entries, the
base instance of each command being the initial base plus the instance
counts of all commands emitted before it, and the instance buffer
holding exactly the summed instances. -/
theorem buildDraw_spec :
    ∀ (layout : List Nat) (draws : List (Nat × DrawEntry)) (b : Nat)
      (cmds : List IndirectCommand) (insts : List Instance),
    buildDraw draws layout b = some (cmds, insts) →
    cmds.length = layout.length ∧
    insts.length = (cmds.map (fun c => c.instance_count)).sum ∧
    (∀ i, i < layout.length →
      (cmds.getD i dfltCmd).instance_count =
        countInstances draws (layout.getD i 0) ∧
      (cmds.getD i dfltCmd).base_instance =
        b + ((cmds.take i).map (fun c => c.instance_count)).sum) := by
  intro layout
  induction layout with
  | nil =>
    intro draws b cmds insts h
    rw [buildDraw] at h
    obtain ⟨h1, h2⟩ := Prod.mk.injEq .. ▸ Option.some.inj h
    subst h1
    subst h2
    exact ⟨rfl, rfl, fun i hi => absurd hi (by simp)⟩
  | cons m ms ih =>
    intro draws b cmds insts h
    rw [buildDraw] at h
    cases hE : alookup draws m with
    | none =>
      rw [hE] at h
      simp at h
    | some entry =>
      rw [hE] at h
      cases hR : buildDraw draws ms (b + entry.instances.length) with
      | none =>
        simp only [hR] at h
        simp at h
      | some pr =>
        obtain ⟨cs, is⟩ := pr
        simp only [hR] at h
        obtain ⟨h1, h2⟩ := Prod.mk.injEq .. ▸ Option.some.inj h
        obtain ⟨hlen, hsum, hidx⟩ := ih draws (b + entry.instances.length) cs is hR
        subst h1
        subst h2
        refine ⟨by simp [hlen], ?_, ?_⟩
        · simp [hsum]
        · intro i hi
          cases i with
          | zero =>
            constructor
            · simp [countInstances, hE]
            · simp
          | succ j =>
            have hj : j < ms.length := by simpa using hi
            obtain ⟨hic, hbi⟩ := hidx j hj
            constructor
            · simpa using hic
            · simp only [List.getD_cons_succ, List.take_succ_cons, List.map_cons,
                List.sum_cons]
              rw [hbi]
              omega

/-- Success of the indirect-buffer build when every mesh of the layout
order owns a draw entry. -/
theorem buildDraw_isSome :
    ∀ (layout : List Nat) (draws : List (Nat × DrawEntry)) (b : Nat),
    (∀ m ∈ layout, (alookup draws m).isSome = true) →
    (buildDraw draws layout b).isSome = true := by
  intro layout
  induction layout with
  | nil =>
    intro draws b h
    rw [buildDraw]
    rfl
  | cons m ms ih =>
    intro draws b h
    have hm := h m (List.mem_cons_self m ms)
    cases hE : alookup draws m with
    | none =>
      rw [hE] at hm
      simp at hm
    | some entry =>
      have hr := ih draws (b + entry.instances.length)
        (fun x hx => h x (List.mem_cons_of_mem m hx))
      rw [buildDraw, hE]
      cases hR : buildDraw draws ms (b + entry.instances.length) with
      | none =>
        rw [hR] at hr
        simp at hr
      | some pr =>
        obtain ⟨cs, is⟩ := pr
        simp [hR]

/-- Non-indexed example mesh with 3 vertices (96 bytes of solid data). -/
def exMesh1 : Mesh :=
  { version := 1, indexed := false,
    vertexData := some (List.replicate 96 0), vertexCount := 3 }

/-- Non-indexed example mesh with 2 vertices (64 bytes of solid data). -/
def exMesh2 : Mesh :=
  { version := 1, indexed := false,
    vertexData := some (List.replicate 64 7), vertexCount := 2 }

/-- Example material number one. -/
def exMat1 : Material :=
  { albedo := 1, ambient_occlusion := 0, metallic := 0, roughness := 0 }

/-- Example material number two. -/
def exMat2 : Material :=
  { albedo := 2, ambient_occlusion := 0, metallic := 0, roughness := 0 }

/-- Example asset store: two loaded meshes, two loaded materials. -/
def exAssets3 : Assets :=
  { meshes := [(1, exMesh1), (2, exMesh2)],
    materials := [(1, exMat1), (2, exMat2)] }

/-- Example query: 3 entities over 2 distinct meshes and 2 distinct
materials, all assets ready, all meshes non-indexed. -/
def exQuery3 : List EntityRow :=
  [{ entityId := 100, meshId := 1, materialId := 1, armatureId := 0, transform := 0 },
   { entityId := 101, meshId := 2, materialId := 2, armatureId := 0, transform := 0 },
   { entityId := 102, meshId := 1, materialId := 2, armatureId := 0, transform := 0 }]

/-- Frame output of the 3-entity example on a fresh batcher. -/
def c3out : FrameOutput :=
  (Render.run exAssets3 Render.new exQuery3).getD dfltOut

/-- Example entity drawing mesh 1 with material 1. -/
def exEntityA : EntityRow :=
  { entityId := 10, meshId := 1, materialId := 1, armatureId := 0, transform := 0 }

/-- Example entity drawing mesh 2 with material 1. -/
def exEntityB : EntityRow :=
  { entityId := 11, meshId := 2, materialId := 1, armatureId := 0, transform := 0 }

/-- Batcher state after a first frame that drew only exEntityA. -/
def exStateAfterA : Render :=
  ((Render.run exAssets3 Render.new [exEntityA]).getD dfltOut).state

/-- C1: in every frame that completes (all queried entities ready,
well-formed persistent state, successful run), each entity of the query
has a command for its mesh, each emitted IndirectCommand counts exactly
the entities of the query sharing its mesh, every base_instance equals
the sum of the instance counts of the commands emitted before it (hence
the values are monotone and non-overlapping), and the commands
partition the instance buffer exactly. -/
theorem claim_c1 (assets : Assets) (st : Render) (query : List EntityRow)
    (out : FrameOutput)
    (hwf : renderWF st)
    (hready : ∀ e ∈ query, entityReady assets e = true)
    (hrun : Render.run assets st query = some out) :
    (∀ e ∈ query, e.meshId ∈ out.state.meshes_layout) ∧
    out.indirect.length = out.state.meshes_layout.length ∧
    (∀ i, i < out.indirect.length →
      (out.indirect.getD i dfltCmd).instance_count =
        query.countP (fun e => e.meshId == out.state.meshes_layout.getD i 0) ∧
      (out.indirect.getD i dfltCmd).base_instance =
        ((out.indirect.take i).map (fun c => c.instance_count)).sum) ∧
    out.instances_data.length =
      (out.indirect.map (fun c => c.instance_count)).sum := by
  obtain ⟨acc2, hq, hwf2, hlay, hcnt, hsome⟩ :=
    processQuery_spec assets query ⟨st, [], [], 0⟩ hready hwf.1
  rw [Render.run] at hrun
  rw [hq] at hrun
  simp only [] at hrun
  cases hb : buildDraw acc2.draw_entries acc2.state.meshes_layout 0 with
  | none =>
    rw [hb] at hrun
    simp at hrun
  | some pr =>
    obtain ⟨cmds, insts⟩ := pr
    rw [hb] at hrun
    simp only [] at hrun
    obtain ⟨hlen, hsum, hidx⟩ := buildDraw_spec acc2.state.meshes_layout
      acc2.draw_entries 0 cmds insts hb
    have hout : out =
        { state := acc2.state
          writes := acc2.writes ++
            [⟨BufTag.instances, 0, insts.length * instanceSize⟩,
             ⟨BufTag.indirect, 0, cmds.length * drawIndirectSize⟩]
          indirect := cmds
          instances_data := insts } := (Option.some.inj hrun).symm
    subst hout
    refine ⟨?_, hlen, ?_, hsum⟩
    · intro e he
      rw [hlay]
      by_cases hmem : e.meshId ∈ st.meshes_layout
      · exact List.mem_append_left _ hmem
      · refine List.mem_append_right _ ?_
        exact (mem_firstEncounters e.meshId query st.meshes_layout).2
          ⟨hmem, e, he, rfl⟩
    · intro i hi
      have hi2 : i < acc2.state.meshes_layout.length := by
        rw [← hlen]
        exact hi
      obtain ⟨hic, hbi⟩ := hidx i hi2
      refine ⟨?_, by simpa using hbi⟩
      rw [hic, hcnt]
      simp [countInstances, alookup]

/-- C2 (amended): in a frame in which every mesh previously uploaded by
the batcher is drawn again — in particular any frame of a fresh
batcher — the batcher writes exactly one IndirectCommand per distinct
mesh drawn that frame and no record for any other mesh, in the stable
order of first upload followed by first encounter within the query. -/
theorem claim_c2 (assets : Assets) (st : Render) (query : List EntityRow)
    (hwf : renderWF st)
    (hready : ∀ e ∈ query, entityReady assets e = true)
    (hcov : ∀ m ∈ st.meshes_layout, ∃ e ∈ query, e.meshId = m) :
    ∃ out, Render.run assets st query = some out ∧
      out.state.meshes_layout =
        st.meshes_layout ++ firstEncounters st.meshes_layout query ∧
      out.state.meshes_layout.Nodup ∧
      out.indirect.length = out.state.meshes_layout.length ∧
      (∀ m, m ∈ out.state.meshes_layout ↔ ∃ e ∈ query, e.meshId = m) := by
  obtain ⟨acc2, hq, hwf2, hlay, hcnt, hsome⟩ :=
    processQuery_spec assets query ⟨st, [], [], 0⟩ hready hwf.1
  have hcover : ∀ m ∈ acc2.state.meshes_layout,
      (alookup acc2.draw_entries m).isSome = true := by
    intro m hm
    rw [hlay] at hm
    rcases List.mem_append.1 hm with h1 | h2
    · exact (hsome m).2 (Or.inr (hcov m h1))
    · exact (hsome m).2
        (Or.inr ((mem_firstEncounters m query st.meshes_layout).1 h2).2)
  have hbs := buildDraw_isSome acc2.state.meshes_layout acc2.draw_entries 0 hcover
  obtain ⟨pr, hb⟩ := Option.isSome_iff_exists.1 hbs
  obtain ⟨cmds, insts⟩ := pr
  obtain ⟨hlen, hsum, hidx⟩ := buildDraw_spec acc2.state.meshes_layout
    acc2.draw_entries 0 cmds insts hb
  refine ⟨{ state := acc2.state
            writes := acc2.writes ++
              [⟨BufTag.instances, 0, insts.length * instanceSize⟩,
               ⟨BufTag.indirect, 0, cmds.length * drawIndirectSize⟩]
            indirect := cmds
            instances_data := insts }, ?_, hlay, ?_, hlen, ?_⟩
  · rw [Render.run, hq]
    simp only []
    rw [hb]
  · rw [hlay]
    refine List.Nodup.append hwf.2 (firstEncounters_nodup query st.meshes_layout) ?_
    intro a ha hfe
    exact ((mem_firstEncounters a query st.meshes_layout).1 hfe).1 ha
  · intro m
    rw [hlay]
    constructor
    · intro hm
      rcases List.mem_append.1 hm with h1 | h2
      · exact hcov m h1
      · exact ((mem_firstEncounters m query st.meshes_layout).1 h2).2
    · rintro ⟨e, he, hem⟩
      by_cases hmem : m ∈ st.meshes_layout
      · exact List.mem_append_left _ hmem
      · exact List.mem_append_right _
          ((mem_firstEncounters m query st.meshes_layout).2 ⟨hmem, e, he, hem⟩)

/-- C2 counterexample to the claim as stated: a frame of a batcher that
previously uploaded mesh 1, whose query holds a single ready entity
drawing mesh 2, panics (the unwrap at line 446 on the stale layout
entry of mesh 1 fails) and emits no IndirectCommand at all, although a
mesh drawn that frame exists. -/
theorem claim_c2_counterexample :
    (Render.run exAssets3 Render.new [exEntityA]).isSome = true ∧
    entityReady exAssets3 exEntityB = true ∧
    Render.run exAssets3 exStateAfterA [exEntityB] = none := by
  refine ⟨by decide, by decide, by decide⟩

/-- C3 counterexample to the claim as stated: on the 3-entity,
2-mesh, 2-material example frame the batcher performs three
material-uniform writes (one per entity, the uniform being rewritten
unconditionally on every encounter), not two. -/
theorem claim_c3_counterexample :
    (Render.run exAssets3 Render.new exQuery3).isSome = true ∧
    (c3out.writes.filter (fun w => w.target == BufTag.materials)).length = 3 ∧
    ((c3out.writes.filter (fun w => w.target == BufTag.materials)).length = 2 →
      False) := by
  refine ⟨by decide, by decide, by decide⟩

/-- C3 (amended): a frame whose query holds exactly 3 ready entities
over 2 distinct non-indexed meshes and 2 distinct materials emits
exactly 2 IndirectCommands whose instance counts sum to 3, and performs
3 material-uniform writes (one per entity), landing on exactly 2
distinct offsets of the materials buffer. -/
theorem claim_c3 :
    Render.run exAssets3 Render.new exQuery3 = some c3out ∧
    c3out.indirect.length = 2 ∧
    (c3out.indirect.map (fun c => c.instance_count)).sum = 3 ∧
    (c3out.writes.filter (fun w => w.target == BufTag.materials)).length = 3 ∧
    ((c3out.writes.filter (fun w => w.target == BufTag.materials)).map
      (fun w => w.offset)).dedup.length = 2 := by
  refine ⟨by decide, by decide, by decide, by decide, by decide⟩

/-- C4: processing an entity whose mesh identity is already cached (at
the same content version) — whether this is the first encounter of the
mesh this frame or a repeated one, in the same or a later frame of one
batcher instance — reuses the cached MeshLayout unchanged: the cache,
the layout order and the tail offset stay identical, the instance of
the entity is filed under the cached base vertex and vertex count, the
mesh gains exactly one instance, and no second mesh-buffer write is
issued. -/
theorem claim_c4 (assets : Assets) (acc : FrameAcc) (e : EntityRow)
    (mesh : Mesh) (mat : Material) (ml : MeshLayout)
    (hm : alookup assets.meshes e.meshId = some mesh)
    (hmat : alookup assets.materials e.materialId = some mat)
    (hcached : alookup acc.state.meshes e.meshId = some ml)
    (hver : ml.version = mesh.version) :
    ∃ acc2, processEntity assets acc e = some acc2 ∧
      acc2.state.meshes = acc.state.meshes ∧
      alookup acc2.state.meshes e.meshId = some ml ∧
      acc2.state.meshes_layout = acc.state.meshes_layout ∧
      acc2.state.meshes_size = acc.state.meshes_size ∧
      (∃ inst, acc2.draw_entries = pushInstance e.meshId
        ml.base_vertex ml.vertex_count inst acc.draw_entries) ∧
      countInstances acc2.draw_entries e.meshId =
        countInstances acc.draw_entries e.meshId + 1 ∧
      acc2.writes.filter (fun w => w.target == BufTag.mesh) =
        acc.writes.filter (fun w => w.target == BufTag.mesh) := by
  have hpe : processEntity assets acc e = some
      { (storeMaterial (storeTransform acc e).2 e).2 with
        draw_entries := pushInstance e.meshId ml.base_vertex ml.vertex_count
          ⟨(storeTransform acc e).1, (storeMaterial (storeTransform acc e).2 e).1, 0, 0⟩
          ((storeMaterial (storeTransform acc e).2 e).2).draw_entries
        instances := ((storeMaterial (storeTransform acc e).2 e).2).instances + 1 } := by
    simp only [processEntity, hm, hmat, resolveMeshLayout, hcached]
  refine ⟨_, hpe, rfl, hcached, rfl, rfl, ⟨_, rfl⟩, ?_, ?_⟩
  · show countInstances (pushInstance e.meshId ml.base_vertex ml.vertex_count
      ⟨(storeTransform acc e).1, (storeMaterial (storeTransform acc e).2 e).1, 0, 0⟩
      ((storeMaterial (storeTransform acc e).2 e).2).draw_entries) e.meshId =
      countInstances acc.draw_entries e.meshId + 1
    have hde : ((storeMaterial (storeTransform acc e).2 e).2).draw_entries =
      acc.draw_entries := rfl
    rw [countInstances_pushInstance, hde]
    simp
  · show ((storeMaterial (storeTransform acc e).2 e).2).writes.filter
      (fun w => w.target == BufTag.mesh) =
      acc.writes.filter (fun w => w.target == BufTag.mesh)
    simp [storeTransform, storeMaterial, List.filter_append]

/-- Cached layout entry matching exMesh1 as uploaded at offset 0. -/
def exLayout1 : MeshLayout :=
  { version := 1
    vertex_buffer_location := { offset := 0, size := 96 }
    index_buffer_location := none
    base_vertex := 0
    vertex_count := 3 }

/-- Mid-frame accumulator of a batcher that already cached exMesh1 and
has already processed one entity drawing it this very frame, so the
draw entry for mesh 1 exists: the next encounter of mesh 1 is a
same-frame repetition. -/
def exAccRepeat : FrameAcc :=
  { state :=
      { meshes := [(1, exLayout1)]
        meshes_layout := [1]
        meshes_size := 96
        transform_bases := [(100, 0)]
        material_bases := [(1, 0)]
        cycle := 0 }
    draw_entries := [(1,
      { base_vertex := 0, vertex_count := 3,
        instances := [{ base_transform := 0, base_material := 0,
                        reserve_0 := 0, reserve_1 := 0 }] })]
    writes := [⟨BufTag.transform, 0, transformSize⟩,
               ⟨BufTag.materials, 0, materialUniformSize⟩]
    instances := 1 }

/-- C1 witness: the hypotheses of claim_c1 hold at the 3-entity example
frame on a fresh batcher, and the theorem applies there. -/
theorem claim_c1_witness :
    renderWF Render.new ∧
    (∀ e ∈ exQuery3, entityReady exAssets3 e = true) ∧
    Render.run exAssets3 Render.new exQuery3 = some c3out ∧
    ((∀ e ∈ exQuery3, e.meshId ∈ c3out.state.meshes_layout) ∧
     c3out.indirect.length = c3out.state.meshes_layout.length ∧
     (∀ i, i < c3out.indirect.length →
       (c3out.indirect.getD i dfltCmd).instance_count =
         exQuery3.countP (fun e => e.meshId == c3out.state.meshes_layout.getD i 0) ∧
       (c3out.indirect.getD i dfltCmd).base_instance =
         ((c3out.indirect.take i).map (fun c => c.instance_count)).sum) ∧
     c3out.instances_data.length =
       (c3out.indirect.map (fun c => c.instance_count)).sum) :=
  ⟨⟨rfl, List.nodup_nil⟩, by decide, by decide,
    claim_c1 exAssets3 Render.new exQuery3 c3out ⟨rfl, List.nodup_nil⟩
      (by decide) (by decide)⟩

/-- C2 witness: the hypotheses of claim_c2 hold at the 3-entity example
frame on a fresh batcher, and the theorem applies there. -/
theorem claim_c2_witness :
    renderWF Render.new ∧
    (∀ e ∈ exQuery3, entityReady exAssets3 e = true) ∧
    (∀ m ∈ Render.new.meshes_layout, ∃ e ∈ exQuery3, e.meshId = m) ∧
    (∃ out, Render.run exAssets3 Render.new exQuery3 = some out ∧
      out.state.meshes_layout =
        Render.new.meshes_layout ++
          firstEncounters Render.new.meshes_layout exQuery3 ∧
      out.state.meshes_layout.Nodup ∧
      out.indirect.length = out.state.meshes_layout.length ∧
      (∀ m, m ∈ out.state.meshes_layout ↔ ∃ e ∈ exQuery3, e.meshId = m)) :=
  ⟨⟨rfl, List.nodup_nil⟩, by decide, by decide,
    claim_c2 exAssets3 Render.new exQuery3 ⟨rfl, List.nodup_nil⟩
      (by decide) (by decide)⟩

/-- C4 witness: the hypotheses of claim_c4 hold for exEntityA against a
mid-frame accumulator that already cached exMesh1 at the same version
and already holds a draw entry for it — a same-frame re-encounter —
and the theorem applies there. -/
theorem claim_c4_witness :
    alookup exAssets3.meshes exEntityA.meshId = some exMesh1 ∧
    alookup exAssets3.materials exEntityA.materialId = some exMat1 ∧
    alookup exAccRepeat.state.meshes exEntityA.meshId = some exLayout1 ∧
    exLayout1.version = exMesh1.version ∧
    (∃ acc2, processEntity exAssets3 exAccRepeat exEntityA = some acc2 ∧
      acc2.state.meshes = exAccRepeat.state.meshes ∧
      alookup acc2.state.meshes exEntityA.meshId = some exLayout1 ∧
      acc2.state.meshes_layout = exAccRepeat.state.meshes_layout ∧
      acc2.state.meshes_size = exAccRepeat.state.meshes_size ∧
      (∃ inst, acc2.draw_entries = pushInstance exEntityA.meshId
        exLayout1.base_vertex exLayout1.vertex_count inst
        exAccRepeat.draw_entries) ∧
      countInstances acc2.draw_entries exEntityA.meshId =
        countInstances exAccRepeat.draw_entries exEntityA.meshId + 1 ∧
      acc2.writes.filter (fun w => w.target == BufTag.mesh) =
        exAccRepeat.writes.filter (fun w => w.target == BufTag.mesh)) :=
  ⟨by decide, by decide, by decide, by decide,
    claim_c4 exAssets3 exAccRepeat exEntityA exMesh1 exMat1 exLayout1
      (by decide) (by decide) (by decide) (by decide)⟩

/-- Timing fields of the Gpu state are untouched by the resize
application step. -/
theorem applyResizeRequest_timing (g : Gpu) :
    (applyResizeRequest g).frames_duration = g.frames_duration ∧
    (applyResizeRequest g).frames_cap = g.frames_cap ∧
    (applyResizeRequest g).fps = g.fps ∧
    (applyResizeRequest g).last_frame = g.last_frame := by
  rw [applyResizeRequest]
  cases g.resize_request with
  | none => exact ⟨rfl, rfl, rfl, rfl⟩
  | some wh =>
    obtain ⟨w, h⟩ := wh
    by_cases hc : 0 < w ∧ 0 < h <;> simp [hc]

/-- Invariant of repeated frame requests: a window within capacity
stays within capacity, and the capacity never changes. -/
theorem runFrames_invariant (deltas : List ℚ) :
    ∀ g : Gpu, g.frames_duration.length ≤ g.frames_cap → 0 < g.frames_cap →
    (runFrames g deltas).frames_duration.length ≤ g.frames_cap ∧
    (runFrames g deltas).frames_cap = g.frames_cap := by
  induction deltas with
  | nil => exact fun g h hc => ⟨h, rfl⟩
  | cons d ds ih =>
    intro g h hc
    have hstep := applyResizeRequest_timing (stepFrameTiming g d)
    have hlen : (CreateFrame.run g d).frames_duration.length ≤ g.frames_cap := by
      rw [CreateFrame.run, hstep.1]
      by_cases hfull : g.frames_duration.length = g.frames_cap
      · simp only [stepFrameTiming, if_pos hfull, List.length_cons,
          List.length_dropLast]
        omega
      · simp only [stepFrameTiming, if_neg hfull, List.length_cons]
        omega
    have hcap : (CreateFrame.run g d).frames_cap = g.frames_cap := by
      rw [CreateFrame.run, hstep.2.1]
      rfl
    have hrec := ih (CreateFrame.run g d) (by rw [hcap]; exact hlen)
      (by rw [hcap]; exact hc)
    have hfold : runFrames g (d :: ds) = runFrames (CreateFrame.run g d) ds := rfl
    rw [hfold]
    exact ⟨hcap ▸ hrec.1, hcap ▸ hrec.2⟩

/-- C5: the collected command batches are submitted in a single call as
one list, which is sorted by priority ascending, is a permutation of
everything collected, and keeps the producer order of batches whose
priorities are already mutually ordered (in particular of equal
priorities); on the example priorities 30, 10, 20 the submission order
is 10, 20, 30. -/
theorem claim_c5 (commands : List Commands) (pair : List Commands)
    (hpair : pair.Pairwise (fun a b => a.priority ≤ b.priority))
    (hsub : pair.Sublist commands) :
    List.Pairwise (fun a b => a.priority ≤ b.priority)
      (SubmitCommands.run commands) ∧
    (SubmitCommands.run commands).Perm commands ∧
    pair.Sublist (SubmitCommands.run commands) ∧
    SubmitCommands.run [⟨30, 0⟩, ⟨10, 1⟩, ⟨20, 2⟩] =
      [⟨10, 1⟩, ⟨20, 2⟩, ⟨30, 0⟩] := by
  have htrans : ∀ a b c : Commands,
      decide (a.priority ≤ b.priority) = true →
      decide (b.priority ≤ c.priority) = true →
      decide (a.priority ≤ c.priority) = true := by
    intro a b c h1 h2
    simp only [decide_eq_true_eq] at h1 h2 ⊢
    omega
  have htotal : ∀ a b : Commands,
      (decide (a.priority ≤ b.priority) ||
        decide (b.priority ≤ a.priority)) = true := by
    intro a b
    simp only [Bool.or_eq_true, decide_eq_true_eq]
    omega
  refine ⟨?_, List.mergeSort_perm commands _, ?_, ?_⟩
  · exact (List.sorted_mergeSort htrans htotal commands).imp
      (fun h => by simpa using h)
  · exact List.sublist_mergeSort htrans htotal
      (hpair.imp (fun h => by simpa using h)) hsub
  · simp [SubmitCommands.run, List.mergeSort]

/-- C5 witness: the theorem applied to the example batch list with the
equal-ordered producer pair of priorities 10 and 20. -/
theorem claim_c5_witness :
    List.Pairwise (fun a b => a.priority ≤ b.priority)
      ([⟨10, 1⟩, ⟨20, 2⟩] : List Commands) ∧
    ([⟨10, 1⟩, ⟨20, 2⟩] : List Commands).Sublist
      [⟨30, 0⟩, ⟨10, 1⟩, ⟨20, 2⟩] ∧
    (List.Pairwise (fun a b => a.priority ≤ b.priority)
        (SubmitCommands.run [⟨30, 0⟩, ⟨10, 1⟩, ⟨20, 2⟩]) ∧
      (SubmitCommands.run [⟨30, 0⟩, ⟨10, 1⟩, ⟨20, 2⟩]).Perm
        [⟨30, 0⟩, ⟨10, 1⟩, ⟨20, 2⟩] ∧
      ([⟨10, 1⟩, ⟨20, 2⟩] : List Commands).Sublist
        (SubmitCommands.run [⟨30, 0⟩, ⟨10, 1⟩, ⟨20, 2⟩]) ∧
      SubmitCommands.run [⟨30, 0⟩, ⟨10, 1⟩, ⟨20, 2⟩] =
        [⟨10, 1⟩, ⟨20, 2⟩, ⟨30, 0⟩]) :=
  ⟨by decide, by decide,
    claim_c5 [⟨30, 0⟩, ⟨10, 1⟩, ⟨20, 2⟩] [⟨10, 1⟩, ⟨20, 2⟩]
      (by decide) (by decide)⟩

/-- C6: the rolling FPS window of a freshly created Gpu has capacity
5 * ceil(requested fps); across any sequence of frame requests its
sample count never exceeds that capacity; whenever the window is full
the next frame request evicts exactly the oldest sample (the back of
the deque) while pushing the new delta at the front; and the fps is
recomputed as window length over summed window durations. -/
theorem claim_c6 (fps_request : ℚ) (hfps : 0 < fps_request)
    (sample_count width height : Nat) (deltas : List ℚ) :
    (Gpu.new fps_request sample_count width height).frames_cap =
      FPS_MEASURE_INTERVAL * Nat.ceil fps_request ∧
    (runFrames (Gpu.new fps_request sample_count width height)
        deltas).frames_duration.length ≤
      (Gpu.new fps_request sample_count width height).frames_cap ∧
    (∀ g : Gpu, ∀ d : ℚ, g.frames_duration.length = g.frames_cap →
      (CreateFrame.run g d).frames_duration =
        frameDelta g d :: g.frames_duration.dropLast) ∧
    (∀ g : Gpu, ∀ d : ℚ, (CreateFrame.run g d).fps =
      ((CreateFrame.run g d).frames_duration.length : ℚ) /
        (CreateFrame.run g d).frames_duration.sum) := by
  have hcap0 : 0 < (Gpu.new fps_request sample_count width height).frames_cap := by
    show 0 < FPS_MEASURE_INTERVAL * Nat.ceil fps_request
    have hpos : 0 < Nat.ceil fps_request := Nat.ceil_pos.2 hfps
    exact Nat.mul_pos (by decide) hpos
  refine ⟨rfl, ?_, ?_, ?_⟩
  · exact (runFrames_invariant deltas _ (Nat.zero_le _) hcap0).1
  · intro g d hfull
    rw [CreateFrame.run, (applyResizeRequest_timing _).1]
    simp only [stepFrameTiming, if_pos hfull]
  · intro g d
    rw [CreateFrame.run, (applyResizeRequest_timing _).2.2.1,
      (applyResizeRequest_timing _).1]
    rfl

/-- C6 witness: the theorem applied at a requested rate of 1 fps (so a
capacity of 5 samples) and seven frame requests. -/
theorem claim_c6_witness :
    0 < (1 : ℚ) ∧
    ((Gpu.new 1 1 640 480).frames_cap =
      FPS_MEASURE_INTERVAL * Nat.ceil (1 : ℚ) ∧
    (runFrames (Gpu.new 1 1 640 480)
        [1, 1, 1, 1, 1, 1, 1]).frames_duration.length ≤
      (Gpu.new 1 1 640 480).frames_cap ∧
    (∀ g : Gpu, ∀ d : ℚ, g.frames_duration.length = g.frames_cap →
      (CreateFrame.run g d).frames_duration =
        frameDelta g d :: g.frames_duration.dropLast) ∧
    (∀ g : Gpu, ∀ d : ℚ, (CreateFrame.run g d).fps =
      ((CreateFrame.run g d).frames_duration.length : ℚ) /
        (CreateFrame.run g d).frames_duration.sum)) :=
  ⟨by norm_num, claim_c6 1 (by norm_num) 1 640 480 [1, 1, 1, 1, 1, 1, 1]⟩

/-- C7 counterexample to the claim as stated: a write of 4 bytes at
offset 10 into a buffer of fixed capacity 4 is forwarded to the device
queue unchanged — the batching code neither detects the capacity
violation nor reports any error, the overflowing write is simply
issued (the write appears in the device write log and the operation
returns a normal state). -/
theorem claim_c7_counterexample :
    ((Gpu.new 60 1 640 480).write_buffer { size := 4 } 10 [0, 0, 0, 0]).writes =
      [{ target := { size := 4 }, offset := 10, size := 4 }] ∧
    10 + ([0, 0, 0, 0] : List Nat).length > ({ size := 4 } : Buffer).size := by
  refine ⟨by decide, by decide⟩

/-- C7 (amended): buffer writes are forwarded to the device queue
entirely unchecked — Gpu::write_buffer records every requested write
regardless of the fixed capacity of the target buffer, and no capacity
check or error path exists in this code (any enforcement happens
inside the external wgpu layer). -/
theorem claim_c7 (g : Gpu) (buffer : Buffer) (offset : Nat)
    (data : List Nat) :
    (g.write_buffer buffer offset data).writes =
      g.writes ++ [{ target := buffer, offset := offset, size := data.length }] :=
  rfl

/-- C8: applying a pending resize request with a zero width or zero
height leaves the surface configuration unchanged and does not
reconfigure the surface (the request itself is consumed). -/
theorem claim_c8 (g : Gpu) (width height : Nat)
    (hdeg : width = 0 ∨ height = 0) :
    (applyResizeRequest (g.requestResize width height)).surface_conf =
      g.surface_conf ∧
    (applyResizeRequest (g.requestResize width height)).configures =
      g.configures ∧
    (applyResizeRequest (g.requestResize width height)).resize_request = none := by
  have hcond : ¬(0 < width ∧ 0 < height) := by
    rcases hdeg with h0 | h0 <;> simp [h0]
  simp [Gpu.requestResize, applyResizeRequest, hcond]

/-- C8 witness: the theorem applied to a (0, 7) resize request on a
freshly created Gpu. -/
theorem claim_c8_witness :
    ((0 : Nat) = 0 ∨ (7 : Nat) = 0) ∧
    ((applyResizeRequest ((Gpu.new 60 1 640 480).requestResize 0 7)).surface_conf =
      (Gpu.new 60 1 640 480).surface_conf ∧
    (applyResizeRequest ((Gpu.new 60 1 640 480).requestResize 0 7)).configures =
      (Gpu.new 60 1 640 480).configures ∧
    (applyResizeRequest ((Gpu.new 60 1 640 480).requestResize 0 7)).resize_request =
      none) :=
  ⟨Or.inl rfl, claim_c8 (Gpu.new 60 1 640 480) 0 7 (Or.inl rfl)⟩

/-- C9: two resize requests issued before the next frame coalesce: the
pending request after both is exactly the second one (at most one
request is ever outstanding, the field being a single Option), and
applying the pending request at the next frame behaves exactly as if
only the second request had been issued. -/
theorem claim_c9 (g : Gpu) (w1 h1 w2 h2 : Nat) :
    ((g.requestResize w1 h1).requestResize w2 h2).resize_request =
      some (w2, h2) ∧
    applyResizeRequest ((g.requestResize w1 h1).requestResize w2 h2) =
      applyResizeRequest (g.requestResize w2 h2) :=
  ⟨rfl, rfl⟩

/-- C10: writing through a handle that is absent from the registry or
whose stored object is not a Buffer (both cases being exactly when the
typed retrieval returns none) performs no device write and raises no
error: the state is returned unchanged. -/
theorem claim_c10 (g : Gpu) (id : Nat) (offset : Nat) (data : List Nat)
    (habsent : g.get id = none) :
    g.write_buffer_by_id id offset data = g := by
  rw [Gpu.write_buffer_by_id, habsent]

/-- Gpu holding a shader module (not a buffer) under key 5. -/
def exGpuStored : Gpu :=
  (Gpu.new 60 1 640 480).store 5 (GpuObject.shaderModule 0)

/-- C10 witness: the theorem applied to a handle whose stored object is
a shader module, so the typed buffer retrieval fails. -/
theorem claim_c10_witness :
    exGpuStored.get 5 = none ∧
    exGpuStored.write_buffer_by_id 5 0 [1, 2, 3] = exGpuStored :=
  ⟨by decide, claim_c10 exGpuStored 5 0 [1, 2, 3] (by decide)⟩

end Dotrix
